import Mathlib

/-!
Verification of the monitoring agent's reachability-and-identity-tracking
core (`src/windows/agent.py`) against its natural-language specification.

The Python source is shallowly embedded as executable Lean definitions.
External effects are made explicit:
* a `ping` subprocess invocation is an `Attempt` (either a completed process
  with a return code and captured output, or a raised exception message);
  `ping_ip`'s retry loop consumes one `Attempt` per iteration, so a call with
  `retry = R` corresponds to an attempt list of length `R`;
* an `arp` table query for an address is an `Option String` (the captured
  textual output, or `none` when the command itself failed / timed out, which
  the source converts to a `None` result in its `except` handler);
* numbers parsed by Python's `float` on the decimal literals occurring in
  ping output are modelled exactly as rationals (`Rat`);
* Python's ASCII case mapping (`str.lower` / `str.upper`) is modelled on the
  ASCII range, which covers every pattern the source matches against;
* `subprocess.run(..., text=True)` performs universal-newline translation, so
  captured output lines are separated by a single `'\n'` and
  `str.splitlines` is modelled as splitting on `'\n'`.
-/

set_option maxRecDepth 40000

namespace Agent

/-! ### Python string primitives, modelled character-by-character -/

/-- Python `str.lower` on the ASCII range (`agent.py` only ever matches
ASCII patterns after lowering, plus the already-lowercase literal `"média"`). -/
def pyLowerChar (c : Char) : Char :=
  if 'A' ≤ c && c ≤ 'Z' then Char.ofNat (c.toNat + 32) else c

/-- Python `str.upper` on the ASCII range. -/
def pyUpperChar (c : Char) : Char :=
  if 'a' ≤ c && c ≤ 'z' then Char.ofNat (c.toNat - 32) else c

/-- The whitespace class of Python's `re` module's `\s` and of `str.strip`,
restricted to ASCII. -/
def pyWsChar (c : Char) : Bool :=
  c == ' ' || c == '\t' || c == '\n' || c == '\x0d' || c == '\x0b' || c == '\x0c'

/-- The character class `[0-9A-Fa-f]` of the MAC regexes in
`get_mac_address` (src/windows/agent.py lines 182-185). -/
def isHexChar (c : Char) : Bool :=
  c == '0' || c == '1' || c == '2' || c == '3' || c == '4' ||
  c == '5' || c == '6' || c == '7' || c == '8' || c == '9' ||
  c == 'a' || c == 'b' || c == 'c' || c == 'd' || c == 'e' || c == 'f' ||
  c == 'A' || c == 'B' || c == 'C' || c == 'D' || c == 'E' || c == 'F'

/-- The separator class `[:-]` of the first MAC regex. -/
def isSepChar (c : Char) : Bool :=
  c == ':' || c == '-'

/-- An upper-case hexadecimal digit `[0-9A-F]` (used to state the canonical
MAC form the spec promises). -/
def isUpperHexChar (c : Char) : Bool :=
  c == '0' || c == '1' || c == '2' || c == '3' || c == '4' ||
  c == '5' || c == '6' || c == '7' || c == '8' || c == '9' ||
  c == 'A' || c == 'B' || c == 'C' || c == 'D' || c == 'E' || c == 'F'

/-- The digit class `\d` (ASCII). -/
def isDigitChar (c : Char) : Bool :=
  '0' ≤ c && c ≤ '9'

/-- Value of an ASCII digit run, as read by Python `float` on a `\d+` match
(always a nonnegative integer there). -/
def digitsToNat (l : List Char) : Nat :=
  l.foldl (fun n c => n * 10 + (c.toNat - 48)) 0

/-- Python `str.strip()` (ASCII whitespace). -/
def pyStripL (l : List Char) : List Char :=
  ((l.dropWhile pyWsChar).reverse.dropWhile pyWsChar).reverse

/-- Python `str.split(sep)` for a one-character separator (the source only
splits on `"."`, `"="`, `"/"`, `" "` and newlines). Keeps empty components,
like Python. -/
def splitOnCharL (sep : Char) : List Char → List (List Char)
  | [] => [[]]
  | c :: rest =>
    let r := splitOnCharL sep rest
    if c == sep then [] :: r
    else
      match r with
      | h :: t => (c :: h) :: t
      | [] => [[c]]

/-- Bool-valued prefix test on character lists. -/
def isPrefixOfL (p l : List Char) : Bool :=
  match p, l with
  | [], _ => true
  | _ :: _, [] => false
  | a :: ps, b :: ls => a == b && isPrefixOfL ps ls

/-- Bool-valued substring test (Python's `needle in hay`). -/
def isInfixOfL (p : List Char) : List Char → Bool
  | [] => isPrefixOfL p []
  | c :: rest => isPrefixOfL p (c :: rest) || isInfixOfL p rest

/-- Python `line.split(sep)[0]` for a multi-character separator: the text
before the first occurrence of `sep`, or the whole text when `sep` does not
occur (used for `line.split("% packet loss")[0]`). -/
def takeBeforeL (needle : List Char) : List Char → List Char
  | [] => []
  | c :: rest =>
    if isPrefixOfL needle (c :: rest) then []
    else c :: takeBeforeL needle rest

/-- Case-insensitive containment `pat in line.lower()` where `pat` is an
already-lowercase literal. -/
def lowerContains (line pat : List Char) : Bool :=
  isInfixOfL pat (line.map pyLowerChar)

/-- Python `s[-500:]`: the last (up to) 500 characters. -/
def tail500 (s : String) : String :=
  String.mk (s.data.drop (s.data.length - 500))

/-- Python `str.upper` lifted to strings. -/
def pyUpper (s : String) : String :=
  String.mk (s.data.map pyUpperChar)

/-! ### The regex fragments used by `ping_ip`, compiled by hand.

Each pattern is matched at one position (`...At`), and `re.search`'s
leftmost-match behaviour is a scan over all start positions. All the
patterns below are deterministic (their consecutive character classes are
disjoint), so greedy matching needs no backtracking except for the single
optional `s?` in `bytes?\s+from`, which is tried both ways. -/

/-- Match a lowercase literal pattern case-insensitively at the head,
returning the remaining characters. -/
def litCIAt (pat : List Char) (l : List Char) : Option (List Char) :=
  match pat, l with
  | [], rest => some rest
  | _ :: _, [] => none
  | p :: ps, c :: cs => if pyLowerChar c == p then litCIAt ps cs else none

/-- `\s+` at the head: at least one whitespace character, greedily consumed. -/
def wsPlusAt (l : List Char) : Option (List Char) :=
  match l with
  | [] => none
  | c :: cs => if pyWsChar c then some (cs.dropWhile pyWsChar) else none

/-- `\s+from` at the head (case-insensitive tail of two reply patterns). -/
def wsFromAt (l : List Char) : Bool :=
  match wsPlusAt l with
  | some r => (litCIAt "from".data r).isSome
  | none => false

/-- `bytes?\s+from` at one position (IGNORECASE). -/
def bytesFromAt (l : List Char) : Bool :=
  match litCIAt "byte".data l with
  | none => false
  | some r =>
    (match r with
     | c :: cs => (pyLowerChar c == 's' && wsFromAt cs) || wsFromAt r
     | [] => false)

/-- `resposta\s+de` at one position (IGNORECASE). -/
def respostaAt (l : List Char) : Bool :=
  match litCIAt "resposta".data l with
  | some r =>
    (match wsPlusAt r with
     | some r2 => (litCIAt "de".data r2).isSome
     | none => false)
  | none => false

/-- `reply\s+from` at one position (IGNORECASE). -/
def replyFromAt (l : List Char) : Bool :=
  match litCIAt "reply".data l with
  | some r => wsFromAt r
  | none => false

/-- `ttl\s*=` at one position (IGNORECASE). -/
def ttlAt (l : List Char) : Bool :=
  match litCIAt "ttl".data l with
  | some r =>
    (match r.dropWhile pyWsChar with
     | c :: _ => c == '='
     | [] => false)
  | none => false

/-- Any of the four reply-evidence patterns at one position
(src/windows/agent.py lines 127-132). -/
def evidenceAt (l : List Char) : Bool :=
  bytesFromAt l || respostaAt l || replyFromAt l || ttlAt l

/-- `re.search` as a scan over start positions, Bool result. -/
def anyPositionB (p : List Char → Bool) : List Char → Bool
  | [] => p []
  | c :: rest => p (c :: rest) || anyPositionB p rest

/-- `re.search` as a scan over start positions, first (leftmost) match. -/
def firstMatch {α : Type} (f : List Char → Option α) : List Char → Option α
  | [] => f []
  | c :: rest =>
    match f (c :: rest) with
    | some v => some v
    | none => firstMatch f rest

/-- `any(_re.search(p, output, IGNORECASE) for p in success_patterns)`
(src/windows/agent.py line 133). -/
def hasReplyEvidence (out : String) : Bool :=
  anyPositionB evidenceAt out.data

/-- `(\d+)\s*ms` at one position (IGNORECASE); captures the digit run. -/
def numMsAt (l : List Char) : Option Nat :=
  let ds := l.takeWhile isDigitChar
  if ds.isEmpty then none
  else
    match litCIAt "ms".data ((l.drop ds.length).dropWhile pyWsChar) with
    | some _ => some (digitsToNat ds)
    | none => none

/-- `\((\d+)\s*%` at one position; captures the digit run. -/
def parenPctAt (l : List Char) : Option Nat :=
  match l with
  | [] => none
  | c :: rest =>
    if c == '(' then
      let ds := rest.takeWhile isDigitChar
      if ds.isEmpty then none
      else
        match (rest.drop ds.length).dropWhile pyWsChar with
        | c2 :: _ => if c2 == '%' then some (digitsToNat ds) else none
        | [] => none
    else none

/-- Python `float(s)` on the decimal literals that occur in ping summaries:
optional sign, digits with at most one decimal point, surrounded by optional
whitespace. Returns `none` where `float` raises `ValueError` (exponent and
other exotic forms are outside the shapes the source can encounter and are
conservatively rejected too). -/
def parseUDec (l : List Char) : Option Rat :=
  let d1 := l.takeWhile isDigitChar
  match l.drop d1.length with
  | [] => if d1.isEmpty then none else some ((digitsToNat d1 : Rat))
  | '.' :: r2 =>
    let d2 := r2.takeWhile isDigitChar
    if (r2.drop d2.length).isEmpty && (!d1.isEmpty || !d2.isEmpty) then
      some (mkRat ((digitsToNat d1 * 10 ^ d2.length + digitsToNat d2 : Nat) : Int) (10 ^ d2.length))
    else none
  | _ => none

/-- Python `float(s)` including sign and whitespace stripping. -/
def parseDecL (l : List Char) : Option Rat :=
  match pyStripL l with
  | '+' :: r => parseUDec r
  | '-' :: r => (parseUDec r).map Neg.neg
  | r => parseUDec r

/-! ### `ping_ip` output parsing (src/windows/agent.py lines 84-116) -/

/-- Windows average-latency loop (lines 86-93): for each stripped line whose
lowercase form contains `"média"` or `"average"`, search `(\d+)\s*ms`; a
match overwrites the value collected so far. -/
def winAvgParse (out : String) : Option Rat :=
  (splitOnCharL '\n' out.data).foldl
    (fun acc line =>
      let line := pyStripL line
      if lowerContains line "média".data || lowerContains line "average".data then
        match firstMatch numMsAt line with
        | some n => some ((n : Rat))
        | none => acc
      else acc)
    none

/-- Windows packet-loss loop (lines 96-100): for each (unstripped) line whose
lowercase form contains `"perdidos"` or `"lost"`, search `\((\d+)\s*%`. -/
def winLossParse (out : String) : Option Rat :=
  (splitOnCharL '\n' out.data).foldl
    (fun acc line =>
      if lowerContains line "perdidos".data || lowerContains line "lost".data then
        match firstMatch parenPctAt line with
        | some n => some ((n : Rat))
        | none => acc
      else acc)
    none

/-- Linux average-latency loop (lines 103-109):
`line.split("=")[-1].strip().split("/")[1]` parsed as a float; any
`IndexError`/`ValueError` is swallowed (`except: pass`). -/
def linuxAvgParse (out : String) : Option Rat :=
  (splitOnCharL '\n' out.data).foldl
    (fun acc line =>
      if isInfixOfL "rtt min/avg/max".data line ||
         isInfixOfL "round-trip min/avg/max".data line then
        let parts := splitOnCharL '/' (pyStripL ((splitOnCharL '=' line).getLastD []))
        match parts.get? 1 with
        | some x =>
          (match parseDecL x with
           | some q => some q
           | none => acc)
        | none => acc
      else acc)
    none

/-- Linux packet-loss loop (lines 111-116):
`float(line.split("% packet loss")[0].split(" ")[-1])`, failures swallowed. -/
def linuxLossParse (out : String) : Option Rat :=
  (splitOnCharL '\n' out.data).foldl
    (fun acc line =>
      if isInfixOfL "% packet loss".data line then
        let tok := (splitOnCharL ' ' (takeBeforeL "% packet loss".data line)).getLastD []
        match parseDecL tok with
        | some q => some q
        | none => acc
      else acc)
    none

/-- The outcome of one iteration of `ping_ip`'s retry loop: either the
subprocess completed (return code and combined stdout+stderr), or invoking
it raised an exception with the given message (`str(e)`). -/
inductive Attempt where
  | proc (returncode : Int) (output : String)
  | exc (msg : String)
deriving DecidableEq

/-- The platform-dispatched average-latency parse of one attempt's output. -/
def parsedAvg (isWindows : Bool) (output : String) : Option Rat :=
  if isWindows then winAvgParse output else linuxAvgParse output

/-- The platform-dispatched packet-loss parse of one attempt's output. -/
def parsedLoss (isWindows : Bool) (output : String) : Option Rat :=
  if isWindows then winLossParse output else linuxLossParse output

/-- The fields `ping_ip` computes from a completed subprocess before
deciding to return or retry. -/
structure AttemptEval where
  reachable : Bool
  avg : Option Rat
  loss : Option Rat
deriving DecidableEq

/-- Evaluation of one completed ping attempt (src/windows/agent.py lines
78-135): declared reachability is process exit success, then locale-variant
parsing, then the two false-positive guards, in source order:
1. declared success with parsed loss ≥ 100% is forced unreachable;
2. declared success with *no parsed average* and no reply-evidence pattern
   in the output is forced unreachable. -/
def evalAttempt (isWindows : Bool) (returncode : Int) (output : String) : AttemptEval :=
  let reachable := returncode == 0
  let avg := parsedAvg isWindows output
  let loss := parsedLoss isWindows output
  let reachable :=
    if reachable &&
       (match loss with
        | some l => decide (l ≥ 100)
        | none => false) then false else reachable
  let reachable :=
    if reachable && avg.isNone && !hasReplyEvidence output then false
    else reachable
  ⟨reachable, avg, loss⟩

/-- The retry loop of `ping_ip` (lines 76-155), threading `last_error`
(`none` models Python's initial `None`; the final `last_error or "ping
failed after retries"` also replaces an empty string by the fallback). -/
def pingGo (isWindows : Bool) : List Attempt → Option String →
    Bool × Option Rat × Option Rat × String
  | [], lastError =>
    (false, none, none,
      match lastError with
      | some s => if s == "" then "ping failed after retries" else s
      | none => "ping failed after retries")
  | .exc msg :: rest, _ =>
    pingGo isWindows rest (some ("ping error: " ++ msg))
  | .proc rc out :: rest, _ =>
    let r := evalAttempt isWindows rc out
    if r.reachable then (true, r.avg, r.loss, tail500 out)
    else pingGo isWindows rest (some (tail500 out))

/-- `ping_ip(ip, count, timeout_ms, retry)` (src/windows/agent.py lines
55-155), with the subprocess world supplied as one `Attempt` per loop
iteration (so `attempts.length = retry`). Returns
`(reachable, avg_latency_ms, packet_loss_percent, raw_output_tail)`. -/
def ping_ip (isWindows : Bool) (attempts : List Attempt) :
    Bool × Option Rat × Option Rat × String :=
  pingGo isWindows attempts none

/-! ### `get_mac_address` (src/windows/agent.py lines 158-201) -/

/-- The first MAC regex `([0-9A-Fa-f]{2}[:-]){5}([0-9A-Fa-f]{2})` matched at
one position; `group(0)` is the full 17-character match. -/
def macSepAt (l : List Char) : Option (List Char) :=
  match l with
  | a1 :: a2 :: s1 :: b1 :: b2 :: s2 :: c1 :: c2 :: s3 :: d1 :: d2 :: s4 ::
    e1 :: e2 :: s5 :: f1 :: f2 :: _ =>
    if isHexChar a1 && isHexChar a2 && isSepChar s1 &&
       isHexChar b1 && isHexChar b2 && isSepChar s2 &&
       isHexChar c1 && isHexChar c2 && isSepChar s3 &&
       isHexChar d1 && isHexChar d2 && isSepChar s4 &&
       isHexChar e1 && isHexChar e2 && isSepChar s5 &&
       isHexChar f1 && isHexChar f2 then
      some [a1, a2, s1, b1, b2, s2, c1, c2, s3, d1, d2, s4, e1, e2, s5, f1, f2]
    else none
  | _ => none

/-- The second MAC regex `([0-9A-Fa-f]{12})` matched at one position. -/
def macBareAt (l : List Char) : Option (List Char) :=
  match l with
  | a1 :: a2 :: b1 :: b2 :: c1 :: c2 :: d1 :: d2 :: e1 :: e2 :: f1 :: f2 :: _ =>
    if isHexChar a1 && isHexChar a2 && isHexChar b1 && isHexChar b2 &&
       isHexChar c1 && isHexChar c2 && isHexChar d1 && isHexChar d2 &&
       isHexChar e1 && isHexChar e2 && isHexChar f1 && isHexChar f2 then
      some [a1, a2, b1, b2, c1, c2, d1, d2, e1, e2, f1, f2]
    else none
  | _ => none

/-- `":".join([mac[i:i+2] for i in range(0, 12, 2)])` on a 12-character
match (src/windows/agent.py line 194). -/
def joinPairsColon : List Char → List Char
  | a :: b :: rest =>
    match rest with
    | [] => [a, b]
    | _ :: _ => a :: b :: ':' :: joinPairsColon rest
  | l => l

/-- Python `'-'`→`':'` replacement (`mac.replace("-", ":")`, a
single-character replace). -/
def dashToColonChar (c : Char) : Char :=
  if c == '-' then ':' else c

/-- Normalization applied to a regex match in `get_mac_address` (lines
190-195): replace hyphens by colons, insert colons into a bare 12-digit
match, then upper-case. -/
def normalizeMacMatch (t : List Char) : String :=
  let t1 := t.map dashToColonChar
  let t2 := if t1.length == 12 then joinPairsColon t1 else t1
  String.mk (t2.map pyUpperChar)

/-- `get_mac_address(ip)` (src/windows/agent.py lines 158-201) as a function
of the `arp` command's captured textual output for that ip (`none` when the
command invocation raised — missing command, timeout — which the source's
`except` handler converts to a `None` result; the best-effort priming ping
at line 169 has no effect on the output value). Searches the first regex
over the whole output first, then the second, and normalizes the match. -/
def get_mac_address (arpOutput : Option String) : Option String :=
  match arpOutput with
  | none => none
  | some out =>
    match firstMatch macSepAt out.data with
    | some t => some (normalizeMacMatch t)
    | none =>
      match firstMatch macBareAt out.data with
      | some t => some (normalizeMacMatch t)
      | none => none

/-- Canonical MAC form from the spec: six colon-separated two-hex-digit
octets, upper-case. -/
def isCanonicalMac (s : String) : Bool :=
  match s.data with
  | [a1, a2, s1, b1, b2, s2, c1, c2, s3, d1, d2, s4, e1, e2, s5, f1, f2] =>
    isUpperHexChar a1 && isUpperHexChar a2 && s1 == ':' &&
    isUpperHexChar b1 && isUpperHexChar b2 && s2 == ':' &&
    isUpperHexChar c1 && isUpperHexChar c2 && s3 == ':' &&
    isUpperHexChar d1 && isUpperHexChar d2 && s4 == ':' &&
    isUpperHexChar e1 && isUpperHexChar e2 && s5 == ':' &&
    isUpperHexChar f1 && isUpperHexChar f2
  | _ => false

/-! ### `scan_network_for_mac` (src/windows/agent.py lines 204-255)

The sweep dispatches `check_ip(suffix)` for suffixes 1..254 to a 20-worker
thread pool and consumes results in `as_completed` order, returning the
first hit and cancelling the rest. The concurrent execution is modelled by
two schedule parameters:
* `startElapsed s` — the wall-clock seconds elapsed since `start_time` when
  the unit for suffix `s` begins executing (the only moment the source
  consults the clock: `if time.time() - start_time > timeout_sec` at line
  226 is a check at unit *start*);
* `order` — the sequence of suffixes in `as_completed` order (a permutation
  of 1..254 in a real run).
The per-address MAC resolution (`get_mac_address(ip)` at line 230) is
abstracted as `resolver : String → Option String`. -/

/-- `mac.upper().replace("-", ":")` (line 219). -/
def macTargetNorm (mac : String) : String :=
  String.mk ((pyUpper mac).data.map dashToColonChar)

/-- The match test of `check_ip` (line 232): a truthy resolved MAC whose
upper-case form equals the normalized target. -/
def resolvesTo (resolver : String → Option String) (mac ip : String) : Bool :=
  match resolver ip with
  | some found => !(found == "") && pyUpper found == macTargetNorm mac
  | none => false

/-- `check_ip(suffix)` (lines 224-236): give up (return `None`) when the
unit starts after the overall deadline has elapsed, otherwise resolve
`f"{network_prefix}{suffix}"` and return it on a MAC match. -/
def check_ip (resolver : String → Option String) (mac pre : String)
    (timeoutSec : Nat) (startElapsed : Nat → Nat) (suffix : Nat) : Option String :=
  if timeoutSec < startElapsed suffix then none
  else
    let ip := pre ++ Nat.repr suffix
    if resolvesTo resolver mac ip then some ip else none

/-- `scan_network_for_mac(mac, network_prefix, timeout_sec)` (lines
204-255): the first completed unit with a non-`None` result wins (the
remaining futures are cancelled); if every unit completes without a match
the scan returns `None`. Exceptions from units are swallowed (line 251-252;
the model's units are total). -/
def scan_network_for_mac (mac pre : String) (timeoutSec : Nat)
    (resolver : String → Option String) (startElapsed : Nat → Nat)
    (order : List Nat) : Option String :=
  order.findSome? (check_ip resolver mac pre timeoutSec startElapsed)

/-! ### The per-device state machine of `run_once` (src/windows/agent.py
lines 852-937)

External collaborators are injected:
* `pingFn ip` — the result of `ping_ip(ip, count=4, timeout_ms=1000,
  retry=2)` for this cycle;
* `resolver ip` — the result of `get_mac_address(ip)` (shared by the direct
  resolution at line 880 and the scan's units);
* `startElapsed`/`order` — the scan schedule as above;
* `now` — the value of `time.time()` when a cache entry is written;
* `tracking` — the `AGENT_MAC_TRACKING` toggle (line 854).
-/

/-- The result quadruple of a `ping_ip` call as consumed by `run_once`. -/
structure PingRes where
  reachable : Bool
  avg : Option Rat
  loss : Option Rat
  tail : String
deriving DecidableEq

/-- One roster entry (`cameras` list element, built at lines 788-796 with
exactly the keys `name` and `ip`). -/
structure Camera where
  name : Option String
  ip : String
deriving DecidableEq

/-- One `camera_mac_cache` entry (lines 884-888). -/
structure CacheEntry where
  mac : String
  last_ip : String
  last_seen : Nat
deriving DecidableEq

/-- The `camera_mac_cache` dict, as an association list keyed by
`str(cam_id)`. -/
abbrev Cache := List (String × CacheEntry)

/-- Python dict lookup (first matching key). -/
def lookupC (cache : Cache) (k : String) : Option CacheEntry :=
  match cache with
  | [] => none
  | (k2, e) :: rest => if k2 == k then some e else lookupC rest k

/-- Python dict assignment `cache[k] = e` (replace the entry, or append a
new one). -/
def updateC (cache : Cache) (k : String) (e : CacheEntry) : Cache :=
  match cache with
  | [] => [(k, e)]
  | (k2, e2) :: rest =>
    if k2 == k then (k2, e) :: rest else (k2, e2) :: updateC rest k e

/-- One report entry appended to `cam_reports` (lines 922-932). -/
structure Report where
  name : Option String
  ip : String
  status : String
  latency_ms : Option Rat
  packet_loss : Option Rat
  suspicious : Bool
  mac_address : Option String
  ip_changed : Bool
  old_ip : Option String
deriving DecidableEq

/-- What one iteration of the camera loop produces: the appended report,
the cache after the iteration, and whether this iteration set
`mac_cache_updated`. -/
structure StepOut where
  report : Report
  cache : Cache
  updated : Bool
deriving DecidableEq

/-- `cam_id = c.get("id") or name or ip` followed by `str(cam_id)` (line
861): the roster entries carry no `id` key, and Python `or` skips falsy
values (`None` and the empty string). -/
def camKey (c : Camera) : String :=
  match c.name with
  | some n => if n == "" then c.ip else n
  | none => c.ip

/-- The cache write on a verified sighting (lines 883-890): write the whole
entry when the id is absent or the cached `mac` differs; otherwise leave the
dict untouched. Returns the cache and the `mac_cache_updated` contribution. -/
def recordMac (cache : Cache) (key mac ip : String) (now : Nat) : Cache × Bool :=
  match lookupC cache key with
  | none => (updateC cache key ⟨mac, ip, now⟩, true)
  | some e =>
    if e.mac == mac then (cache, false)
    else (updateC cache key ⟨mac, ip, now⟩, true)

/-- The cache touch-up after a successful relocation (lines 915-916):
`mac_cache[key]["last_ip"] = new_ip; mac_cache[key]["last_seen"] = now`
(the entry is known to exist on this path). -/
def touchEntry (cache : Cache) (key nip : String) (now : Nat) : Cache :=
  match lookupC cache key with
  | some e => updateC cache key ⟨e.mac, nip, now⟩
  | none => cache

/-- `"status": "up" if reachable else "down"`. -/
def statusOf (reachable : Bool) : String :=
  if reachable then "up" else "down"

/-- `ip.startswith(("192.168.", "10.", "172."))` (line 869). -/
def startsPrivate (ip : String) : Bool :=
  isPrefixOfL "192.168.".data ip.data ||
  isPrefixOfL "10.".data ip.data ||
  isPrefixOfL "172.".data ip.data

/-- The `suspicious` flag (lines 866-870), computed from the *initial*
probe before any relocation attempt. -/
def suspiciousOf (p : PingRes) (ip : String) : Bool :=
  p.reachable &&
  (match p.avg with
   | some a => decide (a > 500)
   | none => false) &&
  startsPrivate ip

/-- `".".join(ip_parts[:3]) + "."` on the dot-split of the current address
(lines 899-901). -/
def prefixOfIp (parts : List (List Char)) : String :=
  String.mk (((parts.take 3).intersperse ".".data).flatten ++ ".".data)

/-- The unreachable-branch tail of one camera-loop iteration (lines
893-920), entered when the initial probe failed: when a MAC is cached for
this camera and the current address splits into four dot-parts, scan the
/24 for the cached MAC; a hit at a *different* address sets `ip_changed`
(before any re-verification), then the new address is re-probed and only on
re-probe success is the cache updated and the reported address switched. -/
def deviceDown (pingFn : String → PingRes) (resolver : String → Option String)
    (startElapsed : Nat → Nat) (order : List Nat) (now : Nat)
    (cache : Cache) (c : Camera) (p : PingRes) (susp : Bool) : StepOut :=
  let down : StepOut :=
    ⟨⟨c.name, c.ip, statusOf p.reachable, p.avg, p.loss, susp, none, false, none⟩,
     cache, false⟩
  match lookupC cache (camKey c) with
  | none => down
  | some e =>
    if e.mac == "" then down
    else
      let parts := splitOnCharL '.' c.ip.data
      if parts.length == 4 then
        match scan_network_for_mac e.mac (prefixOfIp parts) 30 resolver startElapsed order with
        | none => down
        | some nip =>
          if nip == "" || nip == c.ip then down
          else
            let p2 := pingFn nip
            if p2.reachable then
              ⟨⟨c.name, nip, statusOf p2.reachable, p2.avg, p2.loss, susp, none,
                true, some c.ip⟩,
               touchEntry cache (camKey c) nip now, true⟩
            else
              ⟨⟨c.name, c.ip, statusOf p2.reachable, p2.avg, p2.loss, susp, none,
                true, some c.ip⟩,
               cache, false⟩
      else down

/-- One iteration of the camera loop of `run_once` (lines 858-932): probe
the roster address, compute `suspicious`, then the MAC-tracking block —
when reachable, resolve the MAC (`get_mac_address` over the arp output
environment `arpEnv`) and cache a truthy result; when unreachable, try
rediscovery (`deviceDown`). With tracking disabled the loop only reports. -/
def deviceStep (pingFn : String → PingRes) (arpEnv : String → Option String)
    (startElapsed : Nat → Nat) (order : List Nat) (tracking : Bool) (now : Nat)
    (cache : Cache) (c : Camera) : StepOut :=
  let p := pingFn c.ip
  let susp := suspiciousOf p c.ip
  let plain : StepOut :=
    ⟨⟨c.name, c.ip, statusOf p.reachable, p.avg, p.loss, susp, none, false, none⟩,
     cache, false⟩
  if tracking then
    if p.reachable then
      match get_mac_address (arpEnv c.ip) with
      | some m =>
        let rm := if m == "" then (cache, false) else recordMac cache (camKey c) m c.ip now
        ⟨⟨c.name, c.ip, statusOf p.reachable, p.avg, p.loss, susp, some m,
          false, none⟩,
         rm.1, rm.2⟩
      | none => plain
    else
      deviceDown pingFn (fun ip => get_mac_address (arpEnv ip)) startElapsed order
        now cache c p susp
  else plain

/-- The camera loop of `run_once` (lines 858-932): iterate `deviceStep`
over the roster, threading the cache and accumulating `cam_reports` and
`mac_cache_updated`. -/
def run_once (pingFn : String → PingRes) (arpEnv : String → Option String)
    (startElapsed : Nat → Nat) (order : List Nat) (tracking : Bool) (now : Nat) :
    List Camera → Cache → List Report × Cache × Bool
  | [], cache => ([], cache, false)
  | c :: cs, cache =>
    let s := deviceStep pingFn arpEnv startElapsed order tracking now cache c
    let rest := run_once pingFn arpEnv startElapsed order tracking now cs s.cache
    (s.report :: rest.1, rest.2.1, s.updated || rest.2.2)

/-- Convenience predicate used only to discuss the rediscovery claims: the
unit for suffix `s` both starts and finishes within the deadline, given its
start-schedule and its resolution duration. The source never consults the
clock after a unit has started, which is exactly what claims C4/C5 probe. -/
def completesWithin (startElapsed durElapsed : Nat → Nat) (timeoutSec s : Nat) : Bool :=
  startElapsed s + durElapsed s ≤ timeoutSec

/-- One attempt of the retry loop counts as failed (triggering a retry or
the final failure return): either invoking the command raised, or the
completed process was classified unreachable. -/
def attemptFails (isWindows : Bool) : Attempt → Bool
  | .proc rc out => !(evalAttempt isWindows rc out).reachable
  | .exc _ => true

/-- A process attempt whose output contains no reply evidence and from which
no average latency was parsed (exception attempts satisfy this trivially). -/
def blindProc (isWindows : Bool) : Attempt → Bool
  | .proc _ out => !hasReplyEvidence out && (parsedAvg isWindows out).isNone
  | .exc _ => true

/-! ### Concrete scenario data used by counterexamples and witnesses -/

/-- A ping output with a parsed average latency but no reply evidence
(no "bytes from", no "reply/resposta", no TTL marker). -/
def c1Output : String := "Average = 4ms"

/-- A probe oracle under which every address is unreachable. -/
def allDownPing (_ : String) : PingRes := ⟨false, none, none, "Request timed out."⟩

/-- A probe oracle under which every address is reachable with 3 ms. -/
def allUpPing (_ : String) : PingRes := ⟨true, some 3, some 0, "Reply from x: ttl=64"⟩

/-- An arp-output environment in which only `10.0.0.9` shows a MAC. -/
def reloArp (ip : String) : Option String :=
  if ip == "10.0.0.9" then some "10.0.0.9 aa-bb-cc-dd-ee-ff dynamic" else none

/-- An arp-output environment in which every address shows the same MAC. -/
def constArp (_ : String) : Option String := some "aa-bb-cc-dd-ee-ff"

/-- A cache with one camera known by MAC `AA:BB:CC:DD:EE:FF` at `10.0.0.5`,
last seen at time 100. -/
def reloCache : Cache := [("cam1", ⟨"AA:BB:CC:DD:EE:FF", "10.0.0.5", 100⟩)]

/-- The camera `cam1` rostered at address `10.0.0.5`. -/
def reloCam : Camera := ⟨some "cam1", "10.0.0.5"⟩

/-- A resolver (`get_mac_address` composed with an arp environment, already
abstracted) matching the target MAC only at `192.168.1.9`. -/
def c4Resolver (ip : String) : Option String :=
  if ip == "192.168.1.9" then some "AA:BB:CC:DD:EE:FF" else none

/-- A schedule where every unit starts 29 s after the sweep began. -/
def c4Start (_ : Nat) : Nat := 29

/-- Resolution durations: every unit takes 5 s of wall-clock time. -/
def c4Dur (_ : Nat) : Nat := 5

/-- A schedule where the unit for suffix 9 starts only 31 s after the sweep
began (after the 30 s deadline) and all other units start immediately. -/
def c4LateStart (s : Nat) : Nat := if s == 9 then 31 else 0

/-! ## Helper lemmas -/

theorem findSome?_eq_none_of {α β : Type} (f : α → Option β) (l : List α)
    (h : ∀ a ∈ l, f a = none) : l.findSome? f = none :=
  List.findSome?_eq_none_iff.mpr h

theorem findSome?_eq_some_of_unique {α β : Type} [DecidableEq α]
    (f : α → Option β) (l : List α) (a : α) (b : β)
    (hmem : a ∈ l) (ha : f a = some b)
    (huniq : ∀ x ∈ l, x ≠ a → f x = none) : l.findSome? f = some b := by
  induction l with
  | nil => cases hmem
  | cons x xs ih =>
    by_cases hx : x = a
    · subst hx
      simp [List.findSome?, ha]
    · have hnone := huniq x (by simp) hx
      simp only [List.findSome?, hnone]
      have hmem2 : a ∈ xs := by
        rcases List.mem_cons.mp hmem with h | h
        · exact absurd h.symm hx
        · exact h
      exact ih hmem2 (fun y hy hne => huniq y (by simp [hy]) hne)

theorem lookupC_updateC_self (cache : Cache) (k : String) (e : CacheEntry) :
    lookupC (updateC cache k e) k = some e := by
  induction cache with
  | nil => simp [updateC, lookupC]
  | cons p rest ih =>
    obtain ⟨k3, e3⟩ := p
    by_cases h3 : k3 = k
    · simp [updateC, lookupC, h3]
    · simp [updateC, lookupC, h3, ih]

theorem lookupC_updateC_ne (cache : Cache) (k k2 : String) (e : CacheEntry)
    (hne : k2 ≠ k) : lookupC (updateC cache k e) k2 = lookupC cache k2 := by
  induction cache with
  | nil =>
    simp only [updateC, lookupC]
    have : ¬(k = k2) := fun h => hne h.symm
    simp [this]
  | cons p rest ih =>
    obtain ⟨k3, e3⟩ := p
    by_cases h3 : k3 = k
    · subst h3
      have : ¬(k3 = k2) := fun h => hne h.symm
      simp [updateC, lookupC, this]
    · by_cases hq : k3 = k2
      · subst hq
        simp [updateC, lookupC, h3]
      · simp [updateC, lookupC, h3, hq, ih]

/-- A leftmost `re.search` match comes from some start position. -/
theorem exists_of_firstMatch {α : Type} {f : List Char → Option α} {l : List Char} {x : α}
    (h : firstMatch f l = some x) : ∃ l2, f l2 = some x := by
  induction l with
  | nil => exact ⟨[], h⟩
  | cons c rest ih =>
    cases hc : f (c :: rest) with
    | some v =>
      simp only [firstMatch, hc] at h
      exact ⟨c :: rest, by rw [hc, h]⟩
    | none =>
      simp only [firstMatch, hc] at h
      exact ih h

theorem hexChar_upper (c : Char) (h : isHexChar c = true) :
    isUpperHexChar (pyUpperChar (dashToColonChar c)) = true := by
  simp only [isHexChar, Bool.or_eq_true, beq_iff_eq] at h
  casesm* _ ∨ _ <;> subst_vars <;> decide

theorem sepChar_colon (c : Char) (h : isSepChar c = true) :
    pyUpperChar (dashToColonChar c) = ':' := by
  simp only [isSepChar, Bool.or_eq_true, beq_iff_eq] at h
  casesm* _ ∨ _ <;> subst_vars <;> decide

theorem macSepAt_canonical {l t : List Char} (h : macSepAt l = some t) :
    isCanonicalMac (normalizeMacMatch t) = true := by
  unfold macSepAt at h
  split at h
  · rename_i a1 a2 s1 b1 b2 s2 c1 c2 s3 d1 d2 s4 e1 e2 s5 f1 f2 rest
    split at h
    · rename_i hcond
      injection h with h
      subst h
      simp only [Bool.and_eq_true] at hcond
      obtain ⟨⟨⟨⟨⟨⟨⟨⟨⟨⟨⟨⟨⟨⟨⟨⟨ha1, ha2⟩, hs1⟩, hb1⟩, hb2⟩, hs2⟩, hc1⟩, hc2⟩, hs3⟩,
        hd1⟩, hd2⟩, hs4⟩, he1⟩, he2⟩, hs5⟩, hf1⟩, hf2⟩ := hcond
      simp [normalizeMacMatch, isCanonicalMac,
        hexChar_upper _ ha1, hexChar_upper _ ha2, sepChar_colon _ hs1,
        hexChar_upper _ hb1, hexChar_upper _ hb2, sepChar_colon _ hs2,
        hexChar_upper _ hc1, hexChar_upper _ hc2, sepChar_colon _ hs3,
        hexChar_upper _ hd1, hexChar_upper _ hd2, sepChar_colon _ hs4,
        hexChar_upper _ he1, hexChar_upper _ he2, sepChar_colon _ hs5,
        hexChar_upper _ hf1, hexChar_upper _ hf2]
    · cases h
  · cases h

theorem macBareAt_canonical {l t : List Char} (h : macBareAt l = some t) :
    isCanonicalMac (normalizeMacMatch t) = true := by
  unfold macBareAt at h
  split at h
  · rename_i a1 a2 b1 b2 c1 c2 d1 d2 e1 e2 f1 f2 rest
    split at h
    · rename_i hcond
      injection h with h
      subst h
      simp only [Bool.and_eq_true] at hcond
      obtain ⟨⟨⟨⟨⟨⟨⟨⟨⟨⟨⟨ha1, ha2⟩, hb1⟩, hb2⟩, hc1⟩, hc2⟩, hd1⟩, hd2⟩,
        he1⟩, he2⟩, hf1⟩, hf2⟩ := hcond
      have hcolon : pyUpperChar ':' = ':' := by decide
      simp [normalizeMacMatch, isCanonicalMac, joinPairsColon, hcolon,
        hexChar_upper _ ha1, hexChar_upper _ ha2,
        hexChar_upper _ hb1, hexChar_upper _ hb2,
        hexChar_upper _ hc1, hexChar_upper _ hc2,
        hexChar_upper _ hd1, hexChar_upper _ hd2,
        hexChar_upper _ he1, hexChar_upper _ he2,
        hexChar_upper _ hf1, hexChar_upper _ hf2]
    · cases h
  · cases h

/-- Every non-null result of `get_mac_address` is a canonical MAC: six
colon-separated two-hex-digit octets, upper-case. -/
theorem get_mac_address_canonical {o : Option String} {m : String}
    (h : get_mac_address o = some m) : isCanonicalMac m = true := by
  unfold get_mac_address at h
  match o with
  | none => cases h
  | some out =>
    simp only at h
    cases h1 : firstMatch macSepAt out.data with
    | some t =>
      rw [h1] at h
      injection h with h
      subst h
      obtain ⟨l2, hl2⟩ := exists_of_firstMatch h1
      exact macSepAt_canonical hl2
    | none =>
      rw [h1] at h
      cases h2 : firstMatch macBareAt out.data with
      | some t =>
        rw [h2] at h
        injection h with h
        subst h
        obtain ⟨l2, hl2⟩ := exists_of_firstMatch h2
        exact macBareAt_canonical hl2
      | none =>
        rw [h2] at h
        cases h

/-! ### Lemmas about the probe retry loop -/

theorem evalAttempt_avg (isWindows : Bool) (rc : Int) (out : String) :
    (evalAttempt isWindows rc out).avg = parsedAvg isWindows out := rfl

theorem evalAttempt_loss (isWindows : Bool) (rc : Int) (out : String) :
    (evalAttempt isWindows rc out).loss = parsedLoss isWindows out := rfl

/-- A process attempt that parsed no average latency and whose raw output
shows no reply evidence is always classified unreachable, whatever the
return code and the parsed loss. -/
theorem evalAttempt_blind (isWindows : Bool) (rc : Int) (out : String)
    (hev : hasReplyEvidence out = false) (havg : parsedAvg isWindows out = none) :
    (evalAttempt isWindows rc out).reachable = false := by
  unfold evalAttempt
  simp only [havg, hev, Option.isNone_none, Bool.not_false, Bool.and_true]
  cases hp : parsedLoss isWindows out with
  | none => cases hb : (rc == 0) <;> simp [hp, hb]
  | some l => cases hb : (rc == 0) <;> cases hd : decide (l ≥ 100) <;> simp [hp, hb, hd]

theorem pingGo_all_fail (isWindows : Bool) (attempts : List Attempt)
    (h : ∀ a ∈ attempts, attemptFails isWindows a = true) :
    ∀ e, (pingGo isWindows attempts e).1 = false := by
  induction attempts with
  | nil => intro e; rfl
  | cons a rest ih =>
    intro e
    match a with
    | .exc msg =>
      rw [pingGo]
      exact ih (fun x hx => h x (by simp [hx])) _
    | .proc rc out =>
      have hf := h (.proc rc out) (by simp)
      simp only [attemptFails, Bool.not_eq_true'] at hf
      rw [pingGo]
      simp only [hf]
      exact ih (fun x hx => h x (by simp [hx])) _

/-- Retry semantics, success case: any number of failing attempts followed
by a successful one makes `ping_ip` return the successful attempt's data. -/
theorem pingGo_success (isWindows : Bool) (pre : List Attempt) (rc : Int) (out : String)
    (hpre : ∀ a ∈ pre, attemptFails isWindows a = true)
    (hsucc : (evalAttempt isWindows rc out).reachable = true) :
    ∀ e, pingGo isWindows (pre ++ [.proc rc out]) e =
      (true, parsedAvg isWindows out, parsedLoss isWindows out, tail500 out) := by
  induction pre with
  | nil =>
    intro e
    simp only [List.nil_append, pingGo, hsucc, if_true]
    rw [evalAttempt_avg, evalAttempt_loss]
  | cons a rest ih =>
    intro e
    match a with
    | .exc msg =>
      rw [List.cons_append, pingGo]
      exact ih (fun x hx => hpre x (by simp [hx])) _
    | .proc rc2 out2 =>
      have hf := hpre (.proc rc2 out2) (by simp)
      simp only [attemptFails, Bool.not_eq_true'] at hf
      rw [List.cons_append, pingGo]
      simp only [hf]
      exact ih (fun x hx => hpre x (by simp [hx])) _

/-- Retry semantics, all-fail case ending in a completed process: `ping_ip`
returns unreachable with that attempt's diagnostic tail (modulo the
final `or`-fallback when the tail is the empty string). -/
theorem pingGo_fail_last_proc (isWindows : Bool) (pre : List Attempt) (rc : Int) (out : String)
    (hpre : ∀ a ∈ pre, attemptFails isWindows a = true)
    (hlast : (evalAttempt isWindows rc out).reachable = false) :
    ∀ e, pingGo isWindows (pre ++ [.proc rc out]) e =
      (false, none, none,
        if tail500 out == "" then "ping failed after retries" else tail500 out) := by
  induction pre with
  | nil =>
    intro e
    simp only [List.nil_append, pingGo, hlast]
    rfl
  | cons a rest ih =>
    intro e
    match a with
    | .exc msg =>
      rw [List.cons_append, pingGo]
      exact ih (fun x hx => hpre x (by simp [hx])) _
    | .proc rc2 out2 =>
      have hf := hpre (.proc rc2 out2) (by simp)
      simp only [attemptFails, Bool.not_eq_true'] at hf
      rw [List.cons_append, pingGo]
      simp only [hf]
      exact ih (fun x hx => hpre x (by simp [hx])) _

/-- Retry semantics, all-fail case ending in a raised exception: `ping_ip`
returns unreachable with the internal-error string. -/
theorem pingGo_fail_last_exc (isWindows : Bool) (pre : List Attempt) (msg : String)
    (hpre : ∀ a ∈ pre, attemptFails isWindows a = true) :
    ∀ e, pingGo isWindows (pre ++ [.exc msg]) e =
      (false, none, none, "ping error: " ++ msg) := by
  induction pre with
  | nil =>
    intro e
    have hne : (("ping error: " ++ msg) == "") = false := by
      obtain ⟨md⟩ := msg
      simp only [beq_eq_false_iff_ne, ne_eq]
      intro hcontra
      have : ("ping error: ".data ++ md) = [] := congrArg String.data hcontra
      simp at this
    simp only [List.nil_append, pingGo, hne]
    rfl
  | cons a rest ih =>
    intro e
    match a with
    | .exc msg2 =>
      rw [List.cons_append, pingGo]
      exact ih (fun x hx => hpre x (by simp [hx])) _
    | .proc rc2 out2 =>
      have hf := hpre (.proc rc2 out2) (by simp)
      simp only [attemptFails, Bool.not_eq_true'] at hf
      rw [List.cons_append, pingGo]
      simp only [hf]
      exact ih (fun x hx => hpre x (by simp [hx])) _

/-- A nonempty output has a nonempty 500-character tail. -/
theorem tail500_ne_empty (out : String) (h : out ≠ "") : tail500 out ≠ "" := by
  obtain ⟨d⟩ := out
  intro hcontra
  have hd : d ≠ [] := by
    intro hnil
    exact h (by rw [hnil])
  have hlen : (d.drop (d.length - 500)).length = d.length - (d.length - 500) :=
    List.length_drop _ _
  have hdata : (d.drop (d.length - 500)) = [] := by
    have := congrArg String.data hcontra
    exact this
  rw [hdata] at hlen
  have hpos : 0 < d.length := List.length_pos.mpr hd
  simp at hlen
  omega

/-! ### Lemmas about the rediscovery sweep -/

theorem check_ip_none_of_late (resolver : String → Option String) (mac pre : String)
    (timeoutSec : Nat) (startElapsed : Nat → Nat) (s : Nat)
    (h : timeoutSec < startElapsed s) :
    check_ip resolver mac pre timeoutSec startElapsed s = none := by
  simp [check_ip, h]

theorem check_ip_none_of_nomatch (resolver : String → Option String) (mac pre : String)
    (timeoutSec : Nat) (startElapsed : Nat → Nat) (s : Nat)
    (h : resolvesTo resolver mac (pre ++ Nat.repr s) = false) :
    check_ip resolver mac pre timeoutSec startElapsed s = none := by
  unfold check_ip
  split
  · rfl
  · simp [h]

theorem check_ip_some_of (resolver : String → Option String) (mac pre : String)
    (timeoutSec : Nat) (startElapsed : Nat → Nat) (s : Nat)
    (hs : startElapsed s ≤ timeoutSec)
    (h : resolvesTo resolver mac (pre ++ Nat.repr s) = true) :
    check_ip resolver mac pre timeoutSec startElapsed s = some (pre ++ Nat.repr s) := by
  unfold check_ip
  have : ¬(timeoutSec < startElapsed s) := by omega
  simp [this, h]

/-- Whatever a unit returns, it is the unit's own address and it passed the
match test. -/
theorem check_ip_some_spec {resolver : String → Option String} {mac pre : String}
    {timeoutSec : Nat} {startElapsed : Nat → Nat} {s : Nat} {ip : String}
    (h : check_ip resolver mac pre timeoutSec startElapsed s = some ip) :
    ip = pre ++ Nat.repr s ∧ resolvesTo resolver mac ip = true := by
  unfold check_ip at h
  dsimp only at h
  split at h
  · cases h
  · split at h
    · rename_i hres
      injection h with h
      subst h
      exact ⟨rfl, hres⟩
    · cases h

/-- A positive match test yields the resolved MAC behind it. -/
theorem resolvesTo_spec {resolver : String → Option String} {mac ip : String}
    (h : resolvesTo resolver mac ip = true) :
    ∃ fm, resolver ip = some fm ∧ (fm == "") = false ∧ pyUpper fm = macTargetNorm mac := by
  unfold resolvesTo at h
  split at h
  · rename_i fm hres
    simp only [Bool.and_eq_true, Bool.not_eq_true', beq_iff_eq] at h
    exact ⟨fm, hres, by simp [h.1], h.2⟩
  · cases h

/-- A successful sweep returns the address of one of its scheduled units,
and that unit passed the match test. -/
theorem scan_some_spec {mac pre : String} {timeoutSec : Nat}
    {resolver : String → Option String} {startElapsed : Nat → Nat}
    {order : List Nat} {ip : String}
    (h : scan_network_for_mac mac pre timeoutSec resolver startElapsed order = some ip) :
    ∃ s ∈ order, ip = pre ++ Nat.repr s ∧ resolvesTo resolver mac ip = true := by
  obtain ⟨s, hs, hcheck⟩ := List.exists_of_findSome?_eq_some h
  obtain ⟨hip, hres⟩ := check_ip_some_spec hcheck
  exact ⟨s, hs, hip, hres⟩

/-! ### Lemmas about the per-device state machine -/

theorem deviceDown_report_name (pingFn : String → PingRes)
    (resolver : String → Option String) (startElapsed : Nat → Nat) (order : List Nat)
    (now : Nat) (cache : Cache) (c : Camera) (p : PingRes) (susp : Bool) :
    (deviceDown pingFn resolver startElapsed order now cache c p susp).report.name = c.name := by
  unfold deviceDown
  dsimp only
  repeat' split
  all_goals rfl

theorem deviceDown_report_suspicious (pingFn : String → PingRes)
    (resolver : String → Option String) (startElapsed : Nat → Nat) (order : List Nat)
    (now : Nat) (cache : Cache) (c : Camera) (p : PingRes) (susp : Bool) :
    (deviceDown pingFn resolver startElapsed order now cache c p susp).report.suspicious = susp := by
  unfold deviceDown
  dsimp only
  repeat' split
  all_goals rfl

theorem deviceStep_report_name (pingFn : String → PingRes)
    (arpEnv : String → Option String) (startElapsed : Nat → Nat) (order : List Nat)
    (tracking : Bool) (now : Nat) (cache : Cache) (c : Camera) :
    (deviceStep pingFn arpEnv startElapsed order tracking now cache c).report.name = c.name := by
  unfold deviceStep
  dsimp only
  repeat' split
  all_goals first
    | rfl
    | apply deviceDown_report_name

theorem deviceStep_report_suspicious (pingFn : String → PingRes)
    (arpEnv : String → Option String) (startElapsed : Nat → Nat) (order : List Nat)
    (tracking : Bool) (now : Nat) (cache : Cache) (c : Camera) :
    (deviceStep pingFn arpEnv startElapsed order tracking now cache c).report.suspicious =
      suspiciousOf (pingFn c.ip) c.ip := by
  unfold deviceStep
  dsimp only
  repeat' split
  all_goals first
    | rfl
    | apply deviceDown_report_suspicious

/-- Characterization of the cache after the unreachable branch: it is
either untouched, or the relocation succeeded — the scan matched the cached
MAC at a fresh address, whose re-probe succeeded, and only `last_ip` and
`last_seen` of the existing entry were rewritten. -/
theorem deviceDown_cache_spec (pingFn : String → PingRes)
    (resolver : String → Option String) (startElapsed : Nat → Nat) (order : List Nat)
    (now : Nat) (cache : Cache) (c : Camera) (p : PingRes) (susp : Bool) :
    (deviceDown pingFn resolver startElapsed order now cache c p susp).cache = cache ∨
    ∃ nip e0, lookupC cache (camKey c) = some e0 ∧
      (deviceDown pingFn resolver startElapsed order now cache c p susp).cache =
        updateC cache (camKey c) ⟨e0.mac, nip, now⟩ ∧
      (pingFn nip).reachable = true ∧
      ∃ fm, resolver nip = some fm ∧ (fm == "") = false := by
  unfold deviceDown
  dsimp only
  split
  · exact Or.inl rfl
  · rename_i e0 hlook
    split
    · exact Or.inl rfl
    · split
      · split
        · exact Or.inl rfl
        · rename_i hscan
          split
          · exact Or.inl rfl
          · split
            · rename_i nip hnotsame hp2
              refine Or.inr ⟨nip, e0, hlook, ?_, hp2, ?_⟩
              · unfold touchEntry
                rw [hlook]
              · obtain ⟨s, _, _, hres⟩ := scan_some_spec hscan
                obtain ⟨fm, hfm, hne, _⟩ := resolvesTo_spec hres
                exact ⟨fm, hfm, hne⟩
            · exact Or.inl rfl
      · exact Or.inl rfl

/-- Characterization of the cache after one full device iteration: it is
untouched, or a fresh verified sighting was recorded, or a successful
relocation refreshed the existing entry. In both write cases the write is
at this camera's key, the probe of the written address succeeded, and the
resolver produced a (truthy) MAC at that address. -/
theorem deviceStep_cache_spec (pingFn : String → PingRes)
    (arpEnv : String → Option String) (startElapsed : Nat → Nat) (order : List Nat)
    (tracking : Bool) (now : Nat) (cache : Cache) (c : Camera) :
    (deviceStep pingFn arpEnv startElapsed order tracking now cache c).cache = cache ∨
    (∃ m, get_mac_address (arpEnv c.ip) = some m ∧ (pingFn c.ip).reachable = true ∧
      (deviceStep pingFn arpEnv startElapsed order tracking now cache c).cache =
        updateC cache (camKey c) ⟨m, c.ip, now⟩) ∨
    (∃ nip e0, lookupC cache (camKey c) = some e0 ∧
      (deviceStep pingFn arpEnv startElapsed order tracking now cache c).cache =
        updateC cache (camKey c) ⟨e0.mac, nip, now⟩ ∧
      (pingFn nip).reachable = true ∧
      ∃ fm, get_mac_address (arpEnv nip) = some fm) := by
  unfold deviceStep
  dsimp only
  split
  · split
    · rename_i hreach
      split
      · rename_i m hmac
        split
        · exact Or.inl rfl
        · unfold recordMac
          split
          · exact Or.inr (Or.inl ⟨m, hmac, hreach, rfl⟩)
          · split
            · exact Or.inl rfl
            · exact Or.inr (Or.inl ⟨m, hmac, hreach, rfl⟩)
      · exact Or.inl rfl
    · rcases deviceDown_cache_spec pingFn (fun ip => get_mac_address (arpEnv ip))
        startElapsed order now cache c (pingFn c.ip) (suspiciousOf (pingFn c.ip) c.ip) with
        h | ⟨nip, e0, hlook, hcache, hp2, fm, hfm, _⟩
      · exact Or.inl h
      · exact Or.inr (Or.inr ⟨nip, e0, hlook, hcache, hp2, fm, hfm⟩)
  · exact Or.inl rfl

/-- If one device iteration changed the cache at some key, the new value at
that key is an entry written at this cycle's timestamp, the probe of the
entry's address succeeded, and the resolver produced a canonical MAC at
that address. -/
theorem deviceStep_cache_change (pingFn : String → PingRes)
    (arpEnv : String → Option String) (startElapsed : Nat → Nat) (order : List Nat)
    (tracking : Bool) (now : Nat) (cache : Cache) (c : Camera) (k : String)
    (hk : lookupC (deviceStep pingFn arpEnv startElapsed order tracking now cache c).cache k ≠
          lookupC cache k) :
    ∃ e, lookupC (deviceStep pingFn arpEnv startElapsed order tracking now cache c).cache k =
        some e ∧
      e.last_seen = now ∧ (pingFn e.last_ip).reachable = true ∧
      ∃ m, get_mac_address (arpEnv e.last_ip) = some m ∧ isCanonicalMac m = true := by
  rcases deviceStep_cache_spec pingFn arpEnv startElapsed order tracking now cache c with
    h | ⟨m, hmac, hreach, hcache⟩ | ⟨nip, e0, hlook, hcache, hp2, fm, hfm⟩
  · rw [h] at hk
    exact absurd rfl hk
  · rw [hcache] at hk ⊢
    by_cases hkey : k = camKey c
    · subst hkey
      rw [lookupC_updateC_self]
      exact ⟨⟨m, c.ip, now⟩, rfl, rfl, hreach, m, hmac, get_mac_address_canonical hmac⟩
    · rw [lookupC_updateC_ne _ _ _ _ hkey] at hk
      exact absurd rfl hk
  · rw [hcache] at hk ⊢
    by_cases hkey : k = camKey c
    · subst hkey
      rw [lookupC_updateC_self]
      exact ⟨⟨e0.mac, nip, now⟩, rfl, rfl, hp2, fm, hfm, get_mac_address_canonical hfm⟩
    · rw [lookupC_updateC_ne _ _ _ _ hkey] at hk
      exact absurd rfl hk

/-- Cycle-level version of `deviceStep_cache_change`, by induction over the
roster with a last-writer argument. -/
theorem run_once_cache_spec (pingFn : String → PingRes)
    (arpEnv : String → Option String) (startElapsed : Nat → Nat) (order : List Nat)
    (tracking : Bool) (now : Nat) :
    ∀ (cams : List Camera) (cache : Cache) (k : String),
      lookupC (run_once pingFn arpEnv startElapsed order tracking now cams cache).2.1 k ≠
        lookupC cache k →
      ∃ e, lookupC (run_once pingFn arpEnv startElapsed order tracking now cams cache).2.1 k =
          some e ∧
        e.last_seen = now ∧ (pingFn e.last_ip).reachable = true ∧
        ∃ m, get_mac_address (arpEnv e.last_ip) = some m ∧ isCanonicalMac m = true := by
  intro cams
  induction cams with
  | nil =>
    intro cache k hk
    exact absurd rfl hk
  | cons c cs ih =>
    intro cache k hk
    rw [run_once] at hk ⊢
    dsimp only at hk ⊢
    by_cases hmid :
        lookupC (run_once pingFn arpEnv startElapsed order tracking now cs
          (deviceStep pingFn arpEnv startElapsed order tracking now cache c).cache).2.1 k =
        lookupC (deviceStep pingFn arpEnv startElapsed order tracking now cache c).cache k
    · rw [hmid] at hk ⊢
      exact deviceStep_cache_change pingFn arpEnv startElapsed order tracking now cache c k hk
    · exact ih (deviceStep pingFn arpEnv startElapsed order tracking now cache c).cache k hmid

/-- Each cycle produces exactly one report per rostered device, in roster
order, whatever the oracles do. -/
theorem run_once_report_names (pingFn : String → PingRes)
    (arpEnv : String → Option String) (startElapsed : Nat → Nat) (order : List Nat)
    (tracking : Bool) (now : Nat) :
    ∀ (cams : List Camera) (cache : Cache),
      (run_once pingFn arpEnv startElapsed order tracking now cams cache).1.map Report.name =
        cams.map Camera.name := by
  intro cams
  induction cams with
  | nil => intro cache; rfl
  | cons c cs ih =>
    intro cache
    rw [run_once]
    dsimp only
    rw [List.map_cons, List.map_cons, deviceStep_report_name, ih]

/-! ## Claims -/

/-- Claim C1, counterexample: a probe call whose process exits successfully
(`returncode = 0`) and whose output `"Average = 4ms"` contains none of the
reply-evidence patterns is still returned as `reachable = true`, because an
average latency was parsed — the no-evidence guard is *not* applied when an
average latency was parsed, contradicting "this guard applies regardless of
whether an average latency was parsed". -/
theorem claim1_counterexample :
    ping_ip true [.proc 0 c1Output] = (true, some 4, none, c1Output) ∧
    hasReplyEvidence c1Output = false := by
  constructor <;> decide

/-- Claim C1 (amended): the no-reply-evidence guard forces
`reachable = false` only when, in addition, *no average latency was parsed*
from the attempt's output: a call all of whose process attempts parsed no
average latency and show no reply evidence returns `reachable = false`. -/
theorem claim1_amended_guard (isWindows : Bool) (attempts : List Attempt)
    (h : ∀ a ∈ attempts, blindProc isWindows a = true) :
    (ping_ip isWindows attempts).1 = false := by
  apply pingGo_all_fail
  intro a ha
  have hb := h a ha
  match a with
  | .exc msg => rfl
  | .proc rc out =>
    simp only [blindProc, Bool.and_eq_true, Bool.not_eq_true',
      Option.isNone_iff_eq_none] at hb
    simp only [attemptFails, Bool.not_eq_true']
    exact evalAttempt_blind _ _ _ hb.1 hb.2

/-- Claim C1, witness for the amended guard at a concrete input. -/
theorem claim1_witness :
    (∀ a ∈ [Attempt.proc 0 "4 packets transmitted, 0 received"],
      blindProc true a = true) ∧
    (ping_ip true [Attempt.proc 0 "4 packets transmitted, 0 received"]).1 = false :=
  ⟨by decide, claim1_amended_guard true _ (by decide)⟩

/-- Claim C2: the code contradicts the specified state machine. With the
device unreachable at `10.0.0.5`, the scan relocating its cached MAC to the
different address `10.0.0.9`, and the re-probe of `10.0.0.9` unreachable,
the emitted report has `status = "down"` but `ip_changed = true` with
`old_ip = some "10.0.0.5"` recorded (and the reported address still
`10.0.0.5`), because `ip_changed` is set before the re-probe verifies the
new address; the spec requires `relocated = false` with no previous
address. -/
theorem claim2_code_divergence :
    deviceStep allDownPing reloArp (fun _ => 0) (List.range' 1 254) true 200
        reloCache reloCam =
      ⟨⟨some "cam1", "10.0.0.5", "down", none, none, false, none, true, some "10.0.0.5"⟩,
       reloCache, false⟩ := by
  decide

/-- Claim C3, counterexample: calling `record` again with the *same* MAC
does not refresh the entry — the cache is returned untouched, so
`last_seen` stays 100 (instead of advancing to the call's timestamp 200)
and `last_address` stays `10.0.0.5` (instead of the call's `10.0.0.7`). -/
theorem claim3_counterexample :
    recordMac reloCache "cam1" "AA:BB:CC:DD:EE:FF" "10.0.0.7" 200 = (reloCache, false) ∧
    lookupC reloCache "cam1" = some ⟨"AA:BB:CC:DD:EE:FF", "10.0.0.5", 100⟩ ∧
    (100 : Nat) ≠ 200 := by
  refine ⟨by decide, by decide, by decide⟩

/-- Claim C3 (amended): for a cached id, `record` with the same MAC leaves
the entry entirely unchanged (`mac`, `last_address` and `last_seen` all keep
their old values — nothing is refreshed); with a different MAC it replaces
the whole entry, updating `mac`, `last_address` and `last_seen`. -/
theorem claim3_amended_record (cache : Cache) (key m ip : String) (now : Nat)
    (e : CacheEntry) (hlook : lookupC cache key = some e) :
    (e.mac = m → recordMac cache key m ip now = (cache, false)) ∧
    (e.mac ≠ m →
      recordMac cache key m ip now = (updateC cache key ⟨m, ip, now⟩, true) ∧
      lookupC (updateC cache key ⟨m, ip, now⟩) key = some ⟨m, ip, now⟩) := by
  constructor
  · intro hm
    unfold recordMac
    rw [hlook]
    simp [hm]
  · intro hm
    unfold recordMac
    rw [hlook]
    constructor
    · simp [hm]
    · exact lookupC_updateC_self cache key ⟨m, ip, now⟩

/-- Claim C3, witness at concrete inputs for both branches of the amended
record semantics. -/
theorem claim3_witness :
    (recordMac reloCache "cam1" "AA:BB:CC:DD:EE:FF" "10.0.0.7" 200 = (reloCache, false)) ∧
    (recordMac reloCache "cam1" "11:22:33:44:55:66" "10.0.0.7" 200 =
      (updateC reloCache "cam1" ⟨"11:22:33:44:55:66", "10.0.0.7", 200⟩, true)) :=
  ⟨(claim3_amended_record reloCache "cam1" "AA:BB:CC:DD:EE:FF" "10.0.0.7" 200
      ⟨"AA:BB:CC:DD:EE:FF", "10.0.0.5", 100⟩ (by decide)).1 (by decide),
   ((claim3_amended_record reloCache "cam1" "11:22:33:44:55:66" "10.0.0.7" 200
      ⟨"AA:BB:CC:DD:EE:FF", "10.0.0.5", 100⟩ (by decide)).2 (by decide)).1⟩

/-- Claim C4, counterexample: the only matching resolution (suffix 9) starts
29 s into a 30 s sweep and takes 5 s, so it completes only after the
deadline has elapsed — yet `find` returns its address, because the deadline
is only checked when a unit *starts*, never when it completes. -/
theorem claim4_counterexample :
    completesWithin c4Start c4Dur 30 9 = false ∧
    scan_network_for_mac "AA:BB:CC:DD:EE:FF" "192.168.1." 30 c4Resolver c4Start
      (List.range' 1 254) = some "192.168.1.9" := by
  constructor <;> decide

/-- Claim C4 (amended): the wall-clock deadline bounds unit *starts*: if
every unit whose resolution would match the target would only start after
the deadline has elapsed, `find` returns null (a matching unit that starts
at or before the deadline may still be returned even if it completes
after it). -/
theorem claim4_amended_deadline (mac pre : String) (timeoutSec : Nat)
    (resolver : String → Option String) (startElapsed : Nat → Nat) (order : List Nat)
    (h : ∀ s ∈ order, resolvesTo resolver mac (pre ++ Nat.repr s) = true →
      timeoutSec < startElapsed s) :
    scan_network_for_mac mac pre timeoutSec resolver startElapsed order = none := by
  apply findSome?_eq_none_of
  intro s hs
  by_cases hres : resolvesTo resolver mac (pre ++ Nat.repr s) = true
  · exact check_ip_none_of_late _ _ _ _ _ _ (h s hs hres)
  · have hfalse : resolvesTo resolver mac (pre ++ Nat.repr s) = false := by
      simpa using hres
    exact check_ip_none_of_nomatch _ _ _ _ _ _ hfalse

/-- Claim C4, witness: with the only matching unit scheduled to start 31 s
into a 30 s sweep, the scan returns null. -/
theorem claim4_witness :
    (∀ s ∈ List.range' 1 254,
      resolvesTo c4Resolver "AA:BB:CC:DD:EE:FF" ("192.168.1." ++ Nat.repr s) = true →
      (30 : Nat) < c4LateStart s) ∧
    scan_network_for_mac "AA:BB:CC:DD:EE:FF" "192.168.1." 30 c4Resolver c4LateStart
      (List.range' 1 254) = none :=
  ⟨by decide,
   claim4_amended_deadline "AA:BB:CC:DD:EE:FF" "192.168.1." 30 c4Resolver c4LateStart
     (List.range' 1 254) (by decide)⟩

/-- Claim C5: over a sweep of host suffixes 1..254 whose units all start
within the deadline, (a) if exactly one suffix's resolution matches the
target MAC (under the source's case-insensitive comparison), `find` returns
that suffix's address regardless of the suffix's position in the completion
order; (b) if no suffix's resolution matches, `find` returns null. -/
theorem claim5_unique_match :
    (∀ (resolver : String → Option String) (startElapsed : Nat → Nat) (order : List Nat)
        (mac pre : String) (timeoutSec s0 : Nat),
      order.Perm (List.range' 1 254) →
      (∀ s ∈ order, startElapsed s ≤ timeoutSec) →
      s0 ∈ order →
      resolvesTo resolver mac (pre ++ Nat.repr s0) = true →
      (∀ s ∈ order, s ≠ s0 → resolvesTo resolver mac (pre ++ Nat.repr s) = false) →
      scan_network_for_mac mac pre timeoutSec resolver startElapsed order =
        some (pre ++ Nat.repr s0)) ∧
    (∀ (resolver : String → Option String) (startElapsed : Nat → Nat) (order : List Nat)
        (mac pre : String) (timeoutSec : Nat),
      (∀ s ∈ order, resolvesTo resolver mac (pre ++ Nat.repr s) = false) →
      scan_network_for_mac mac pre timeoutSec resolver startElapsed order = none) := by
  constructor
  · intro resolver startElapsed order mac pre timeoutSec s0 _ hdead hmem hmatch huniq
    apply findSome?_eq_some_of_unique _ order s0 _ hmem
    · exact check_ip_some_of _ _ _ _ _ _ (hdead s0 hmem) hmatch
    · intro x hx hne
      exact check_ip_none_of_nomatch _ _ _ _ _ _ (huniq x hx hne)
  · intro resolver startElapsed order mac pre timeoutSec hnone
    apply findSome?_eq_none_of
    intro s hs
    exact check_ip_none_of_nomatch _ _ _ _ _ _ (hnone s hs)

/-- Claim C5, witness: a single matching suffix (9) is found wherever it
sits in the 1..254 sweep; with no matching suffix the scan returns null. -/
theorem claim5_witness :
    scan_network_for_mac "AA:BB:CC:DD:EE:FF" "192.168.1." 30 c4Resolver (fun _ => 0)
      (List.range' 1 254) = some ("192.168.1." ++ Nat.repr 9) ∧
    scan_network_for_mac "AA:BB:CC:DD:EE:FF" "192.168.1." 30 (fun _ => none) (fun _ => 0)
      (List.range' 1 254) = none :=
  ⟨claim5_unique_match.1 c4Resolver (fun _ => 0) (List.range' 1 254)
      "AA:BB:CC:DD:EE:FF" "192.168.1." 30 9 (List.Perm.refl _) (by decide) (by decide)
      (by decide) (by decide),
   claim5_unique_match.2 (fun _ => none) (fun _ => 0) (List.range' 1 254)
      "AA:BB:CC:DD:EE:FF" "192.168.1." 30 (by decide)⟩

/-- Claim C6: retry semantics of the prober. (a) Any number of failing
attempts followed by a successful one makes the call return the successful
attempt's data — reachable with its parsed latency, loss, and (up to) 500
trailing characters of its raw output. (b) If every attempt fails and the
last one was a completed process (with nonempty output), the call returns
unreachable with that attempt's diagnostic tail. (c) If every attempt fails
and the last one raised, the call returns unreachable with the
internal-error string. -/
theorem claim6_retry_semantics :
    (∀ (isWindows : Bool) (pre : List Attempt) (rc : Int) (out : String),
      (∀ a ∈ pre, attemptFails isWindows a = true) →
      (evalAttempt isWindows rc out).reachable = true →
      ping_ip isWindows (pre ++ [.proc rc out]) =
        (true, parsedAvg isWindows out, parsedLoss isWindows out, tail500 out)) ∧
    (∀ (isWindows : Bool) (pre : List Attempt) (rc : Int) (out : String),
      (∀ a ∈ pre, attemptFails isWindows a = true) →
      (evalAttempt isWindows rc out).reachable = false →
      out ≠ "" →
      ping_ip isWindows (pre ++ [.proc rc out]) = (false, none, none, tail500 out)) ∧
    (∀ (isWindows : Bool) (pre : List Attempt) (msg : String),
      (∀ a ∈ pre, attemptFails isWindows a = true) →
      ping_ip isWindows (pre ++ [.exc msg]) =
        (false, none, none, "ping error: " ++ msg)) := by
  refine ⟨?_, ?_, ?_⟩
  · intro isWindows pre rc out hpre hsucc
    exact pingGo_success isWindows pre rc out hpre hsucc none
  · intro isWindows pre rc out hpre hfail hne
    unfold ping_ip
    rw [pingGo_fail_last_proc isWindows pre rc out hpre hfail none]
    have ht : (tail500 out == "") = false := by
      simp only [beq_eq_false_iff_ne, ne_eq]
      exact tail500_ne_empty out hne
    rw [ht]
    simp
  · intro isWindows pre msg hpre
    exact pingGo_fail_last_exc isWindows pre msg hpre none

/-- Claim C6, witness at concrete inputs for all three branches. -/
theorem claim6_witness :
    ping_ip true [.proc 1 "x", .proc 0 "Reply from 1.1.1.1: ttl=3"] =
      (true, none, none, "Reply from 1.1.1.1: ttl=3") ∧
    ping_ip true [.proc 1 "y", .proc 1 "Request timed out."] =
      (false, none, none, "Request timed out.") ∧
    ping_ip true [.proc 1 "y", .exc "boom"] = (false, none, none, "ping error: boom") :=
  ⟨(claim6_retry_semantics.1 true [.proc 1 "x"] 0 "Reply from 1.1.1.1: ttl=3"
      (by decide) (by decide)).trans (by decide),
   (claim6_retry_semantics.2.1 true [.proc 1 "y"] 1 "Request timed out."
      (by decide) (by decide) (by decide)).trans (by decide),
   claim6_retry_semantics.2.2 true [.proc 1 "y"] "boom" (by decide)⟩

/-- Claim C7: identity-cache invariant. Whenever a monitoring cycle changes
the cache at any key, the new value at that key is an entry stamped with
this cycle's clock whose address was probed reachable and whose MAC was
successfully resolved to canonical form (six colon-separated upper-case hex
octets) at that address; in particular entries are never removed, and no
write happens on probe failure, failed resolution, or failed rediscovery. -/
theorem claim7_cache_positive_evidence (pingFn : String → PingRes)
    (arpEnv : String → Option String) (startElapsed : Nat → Nat) (order : List Nat)
    (tracking : Bool) (now : Nat) (cams : List Camera) (cache : Cache) (k : String)
    (hk : lookupC (run_once pingFn arpEnv startElapsed order tracking now cams cache).2.1 k ≠
          lookupC cache k) :
    ∃ e, lookupC (run_once pingFn arpEnv startElapsed order tracking now cams cache).2.1 k =
        some e ∧
      e.last_seen = now ∧ (pingFn e.last_ip).reachable = true ∧
      ∃ m, get_mac_address (arpEnv e.last_ip) = some m ∧ isCanonicalMac m = true :=
  run_once_cache_spec pingFn arpEnv startElapsed order tracking now cams cache k hk

/-- Claim C7, witness: a reachable camera with a resolvable MAC creates a
cache entry, and the invariant instantiates at that key. -/
theorem claim7_witness :
    ∃ e, lookupC (run_once allUpPing constArp (fun _ => 0) (List.range' 1 254) true 200
        [reloCam] []).2.1 "cam1" = some e ∧
      e.last_seen = 200 ∧ (allUpPing e.last_ip).reachable = true ∧
      ∃ m, get_mac_address (constArp e.last_ip) = some m ∧ isCanonicalMac m = true :=
  claim7_cache_positive_evidence allUpPing constArp (fun _ => 0) (List.range' 1 254)
    true 200 [reloCam] [] "cam1" (by decide)

/-- Claim C8: one monitoring cycle emits exactly one report per rostered
device, in roster order — the reports' `name` column is exactly the
roster's `name` column, for *every* behaviour of the probe/resolve/scan
oracles (the oracles are total functions: every per-device failure mode,
including raised probe exceptions and missing commands, is already embedded
as a value, so no device's failure can suppress another device's report). -/
theorem claim8_one_report_per_device (pingFn : String → PingRes)
    (arpEnv : String → Option String) (startElapsed : Nat → Nat) (order : List Nat)
    (tracking : Bool) (now : Nat) (cams : List Camera) (cache : Cache) :
    (run_once pingFn arpEnv startElapsed order tracking now cams cache).1.map Report.name =
      cams.map Camera.name :=
  run_once_report_names pingFn arpEnv startElapsed order tracking now cams cache

/-- Claim C9: `resolve` returns null or a canonical MAC — upper-case, six
colon-separated two-hex-digit octets — and a failed command (missing,
timeout, raised) yields null. -/
theorem claim9_resolver_canonical_or_null :
    get_mac_address none = none ∧
    ∀ o : Option String, get_mac_address o = none ∨
      ∃ m, get_mac_address o = some m ∧ isCanonicalMac m = true := by
  refine ⟨rfl, ?_⟩
  intro o
  cases hm : get_mac_address o with
  | none => exact Or.inl rfl
  | some m => exact Or.inr ⟨m, rfl, get_mac_address_canonical hm⟩

/-- Claim C10: every emitted report's `suspicious` field is true exactly
when the initial probe of the device's roster address was reachable with a
parsed average latency above 500 ms and the roster address begins with one
of the private-range literals `"192.168."`, `"10."`, `"172."` — the flag is
computed before any relocation attempt and is never recomputed. -/
theorem claim10_suspicious_field (pingFn : String → PingRes)
    (arpEnv : String → Option String) (startElapsed : Nat → Nat) (order : List Nat)
    (tracking : Bool) (now : Nat) (cache : Cache) (c : Camera) :
    (deviceStep pingFn arpEnv startElapsed order tracking now cache c).report.suspicious =
      ((pingFn c.ip).reachable &&
       (match (pingFn c.ip).avg with
        | some a => decide (a > 500)
        | none => false) &&
       (isPrefixOfL "192.168.".data c.ip.data || isPrefixOfL "10.".data c.ip.data ||
        isPrefixOfL "172.".data c.ip.data)) := by
  rw [deviceStep_report_suspicious]
  rfl

end Agent

